import Mathlib

/-!
Verification of the floww policy rule-chain subsystem.

This file gives a shallow embedding, in Lean 4, of the policy rule-chain
evaluator (`packages/sdk/policies/evaluator.ts`), the rule-chain builder,
grant resolver and grant-rules CRUD helpers
(`src/server/api/routes/admin.ts`), together with theorems settling the
specification claims about them.

Modelling conventions:
- JavaScript scalar values (string | number | boolean) that parameter
  constraints can test are modelled by the inductive type `Value`; JS
  strict equality on these scalars is Lean equality on `Value`.
- A parameter bag `Record<string, unknown>` is modelled as a function
  `String → Option Value`; `none` models an absent / `undefined` entry.
- `new RegExp(p)` and `.test(s)` are JS builtins, not repository code;
  they are abstracted by a `RegexEngine`: `compiles p` says whether
  regular-expression construction from `p` succeeds, and `test p s`
  gives the match outcome.  All theorems quantify over the engine.
- A thrown JS exception is modelled by `Except.error`; code that can
  throw returns `Except String α`.
- The database (drizzle) is modelled as an in-memory `Store` of rows;
  `select ... where ... limit 1` is `List.find?` on the corresponding
  table, and `update ... set ... where` maps the update over the table.
- JS truthiness of a nullable string (`while (currentFolderId)`,
  `!workflow?.parentFolderId`) is `strTruthy`: `none` and `some ""` are
  falsy.
- The resolver's unbounded `while` loop over the folder hierarchy is
  modelled with explicit fuel: `none` as the outer result means the loop
  has not finished within the given fuel.
-/

namespace Floww

/-- A JavaScript scalar value: string, number or boolean.  These are the
values a `ParameterConstraint` can test. -/
inductive Value where
  | str : String → Value
  | num : Int → Value
  | bool : Bool → Value
deriving DecidableEq, Repr

/-- JS `String(value)` coercion of a scalar, as used by the `pattern`
and `startsWith` sub-tests. -/
def Value.toDisplayString : Value → String
  | .str s => s
  | .num n => toString n
  | .bool b => if b then "true" else "false"

/-- Abstraction of the JS regular-expression builtins: `compiles p`
models whether `new RegExp(p)` succeeds, `test p s` models
`new RegExp(p).test(s)`. -/
structure RegexEngine where
  compiles : String → Bool
  test : String → String → Bool

/-- `ParameterConstraint` from `packages/sdk/policies/types.ts`: one
field-level test; every field is optional. -/
structure ParameterConstraint where
  «in» : Option (List Value) := none
  notIn : Option (List Value) := none
  eq : Option Value := none
  pattern : Option String := none
  startsWith : Option String := none
deriving DecidableEq, Repr

/-- `PolicyEffect` from `types.ts`. -/
inductive PolicyEffect where
  | ALLOW | DENY
deriving DecidableEq, Repr

/-- Provenance tag attached when rules are merged into a chain. -/
inductive RuleSource where
  | grant | default
deriving DecidableEq, Repr

/-- `PolicyRule` from `types.ts`.  `action = none` is the wildcard;
`parameterConstraints` is an ordered mapping (JS object insertion
order), modelled as an association list. -/
structure PolicyRule where
  effect : PolicyEffect
  action : Option String
  parameterConstraints : Option (List (String × ParameterConstraint)) := none
  description : Option String := none
deriving DecidableEq, Repr

/-- `PolicyRuleWithSource` from `types.ts`: a rule plus its source. -/
structure PolicyRuleWithSource extends PolicyRule where
  source : RuleSource
deriving DecidableEq, Repr

/-- `PolicyRuleChain` from `types.ts`. -/
structure PolicyRuleChain where
  rules : List PolicyRuleWithSource
deriving DecidableEq, Repr

/-- Decision outcome of an evaluation. -/
inductive Decision where
  | ALLOWED | DENIED
deriving DecidableEq, Repr

/-- `PolicyEvaluationResult` from `types.ts`. -/
structure PolicyEvaluationResult where
  decision : Decision
  matchedRule : Option PolicyRuleWithSource := none
  reason : String
deriving DecidableEq, Repr

/-- A parameter bag: `none` models a missing / `undefined` parameter. -/
def Params : Type := String → Option Value

/-- `ruleMatchesAction` from `evaluator.ts`: a `null` action is a
wildcard, otherwise exact string equality. -/
def ruleMatchesAction (rule : PolicyRuleWithSource) (action : String) : Bool :=
  match rule.action with
  | none => true
  | some a => decide (a = action)

/-- `checkConstraint` from `evaluator.ts`, translated test by test in
source order.  The only throwing step is regular-expression
construction for the `pattern` sub-test. -/
def checkConstraint (re : RegexEngine) (c : ParameterConstraint) (value : Value) :
    Except String Bool :=
  if c.«in».any (fun vs => !(decide (value ∈ vs))) then .ok false
  else if c.notIn.any (fun vs => decide (value ∈ vs)) then .ok false
  else if c.eq.any (fun v => !(decide (value = v))) then .ok false
  else if c.pattern.any (fun p => !(re.compiles p)) then .error "Invalid regular expression"
  else if c.pattern.any (fun p => !(re.test p value.toDisplayString)) then .ok false
  else if c.startsWith.any (fun pre => !(value.toDisplayString.startsWith pre)) then .ok false
  else .ok true

/-- The `for (const [paramName, constraint] of Object.entries(...))`
loop body of `ruleMatchesParams`, as a recursion over the entry list. -/
def checkEntries (re : RegexEngine) (parameters : Params) :
    List (String × ParameterConstraint) → Except String Bool
  | [] => .ok true
  | (paramName, constraint) :: rest =>
    match parameters paramName with
    | none => .ok false
    | some value =>
      match checkConstraint re constraint value with
      | .error e => .error e
      | .ok false => .ok false
      | .ok true => checkEntries re parameters rest

/-- `ruleMatchesParams` from `evaluator.ts`: absent constraints match
unconditionally; otherwise every entry is checked in order, a missing
parameter meaning no match. -/
def ruleMatchesParams (re : RegexEngine) (rule : PolicyRuleWithSource)
    (parameters : Params) : Except String Bool :=
  match rule.parameterConstraints with
  | none => .ok true
  | some entries => checkEntries re parameters entries

/-- The short-circuit conjunction
`ruleMatchesAction(rule, action) && ruleMatchesParams(rule, parameters)`
used by `evaluateRuleChain`: the parameter gate runs (and can throw)
only when the action gate passes. -/
def ruleMatches (re : RegexEngine) (rule : PolicyRuleWithSource) (action : String)
    (parameters : Params) : Except String Bool :=
  if ruleMatchesAction rule action then ruleMatchesParams re rule parameters
  else .ok false

/-- String form of an effect, for the synthesized reason. -/
def effectText : PolicyEffect → String
  | .ALLOW => "ALLOW"
  | .DENY => "DENY"

/-- String form of a rule source, for the synthesized reason. -/
def sourceText : RuleSource → String
  | .grant => "grant"
  | .default => "default"

/-- The result built for a matching rule inside `evaluateRuleChain`:
decision from the effect, the rule itself, and
`rule.description ?? "<EFFECT> <action-or-*> (<source>)"`. -/
def matchResult (rule : PolicyRuleWithSource) : PolicyEvaluationResult :=
  { decision := if rule.effect = .ALLOW then .ALLOWED else .DENIED
    matchedRule := some rule
    reason :=
      match rule.description with
      | some d => d
      | none =>
        effectText rule.effect ++ " " ++
          (match rule.action with
           | none => "*"
           | some a => a) ++ " (" ++ sourceText rule.source ++ ")" }

/-- The `for (const rule of chain.rules)` loop of `evaluateRuleChain`. -/
def evalRules (re : RegexEngine) (action : String) (parameters : Params) :
    List PolicyRuleWithSource → Except String PolicyEvaluationResult
  | [] =>
    .ok { decision := .ALLOWED, matchedRule := none,
          reason := "No matching rule (implicit allow)" }
  | rule :: rest =>
    match ruleMatches re rule action parameters with
    | .error e => .error e
    | .ok true => .ok (matchResult rule)
    | .ok false => evalRules re action parameters rest

/-- `evaluateRuleChain` from `evaluator.ts`: first matching rule wins,
implicit allow when nothing matches. -/
def evaluateRuleChain (re : RegexEngine) (chain : PolicyRuleChain) (action : String)
    (parameters : Params) : Except String PolicyEvaluationResult :=
  evalRules re action parameters chain.rules

/-- A row of the `provider_access` table, with the columns the policy
routes read.  `resourceType` is kept as a string because the queries
compare it against the literal `'PROVIDER'`. -/
structure Grant where
  id : String
  principleType : String
  principleId : String
  resourceType : String
  resourceId : String
  policyRules : Option (List PolicyRule)
deriving DecidableEq, Repr

/-- A row of the `workflows` table (the columns used here). -/
structure Workflow where
  id : String
  parentFolderId : Option String
deriving DecidableEq, Repr

/-- A row of the `workflow_folders` table (the columns used here). -/
structure WorkflowFolder where
  id : String
  parentFolderId : Option String
deriving DecidableEq, Repr

/-- A row of the `providers` table (the columns used here). -/
structure Provider where
  id : String
  defaultPolicyRules : Option (List PolicyRule)
deriving DecidableEq, Repr

/-- The record store the admin routes query: each table as a list of
rows.  `select ... where p ... limit 1` is `List.find? p`. -/
structure Store where
  providerAccess : List Grant
  workflows : List Workflow
  workflowFolders : List WorkflowFolder
  providers : List Provider
deriving DecidableEq, Repr

/-- The `{ id, policyRules }` projection `findApplicableGrant` returns. -/
structure GrantResult where
  id : String
  policyRules : Option (List PolicyRule)
deriving DecidableEq, Repr

/-- The direct-WORKFLOW-grant query of `findApplicableGrant` (step 1). -/
def directGrantQuery (store : Store) (workflowId providerId : String) : Option Grant :=
  store.providerAccess.find? (fun g =>
    decide (g.principleType = "WORKFLOW") && decide (g.principleId = workflowId) &&
    decide (g.resourceType = "PROVIDER") && decide (g.resourceId = providerId))

/-- The FOLDER-grant query inside the folder walk of
`findApplicableGrant`. -/
def folderGrantQuery (store : Store) (folderId providerId : String) : Option Grant :=
  store.providerAccess.find? (fun g =>
    decide (g.principleType = "FOLDER") && decide (g.principleId = folderId) &&
    decide (g.resourceType = "PROVIDER") && decide (g.resourceId = providerId))

/-- The workflow-row lookup of `findApplicableGrant`. -/
def workflowQuery (store : Store) (workflowId : String) : Option Workflow :=
  store.workflows.find? (fun w => decide (w.id = workflowId))

/-- The folder-row lookup inside the folder walk. -/
def folderQuery (store : Store) (folderId : String) : Option WorkflowFolder :=
  store.workflowFolders.find? (fun f => decide (f.id = folderId))

/-- The provider-row lookup of `getProviderDefaultRules`. -/
def providerQuery (store : Store) (providerId : String) : Option Provider :=
  store.providers.find? (fun p => decide (p.id = providerId))

/-- JS truthiness of a nullable string: `null`/`undefined` and the
empty string are falsy.  Used for `while (currentFolderId)` and
`!workflow?.parentFolderId`. -/
def strTruthy : Option String → Bool
  | none => false
  | some s => !(decide (s = ""))

/-- One parent step of the folder walk:
`folder?.parentFolderId ?? null` after looking the folder up. -/
def folderParent (store : Store) (folderId : String) : Option String :=
  (folderQuery store folderId).bind (fun f => f.parentFolderId)

/-- The `while (currentFolderId)` loop of `findApplicableGrant`,
indexed by fuel.  The outer `Option` records whether the loop finished
within the fuel (`none` = still running); the inner `Option GrantResult`
is the function's return value (`none` = JS `null`). -/
def walkFolders (store : Store) (providerId : String) :
    Nat → Option String → Option (Option GrantResult)
  | _, none => some none
  | 0, some s => if s = "" then some none else none
  | Nat.succ fuel, some s =>
    if s = "" then some none
    else
      match folderGrantQuery store s providerId with
      | some g => some (some { id := g.id, policyRules := g.policyRules })
      | none => walkFolders store providerId fuel (folderParent store s)

/-- `findApplicableGrant` from `admin.ts`, with the folder walk given
explicit fuel: direct WORKFLOW grant first, then the walk up the folder
hierarchy from the workflow's parent folder. -/
def findApplicableGrant (store : Store) (workflowId providerId : String) (fuel : Nat) :
    Option (Option GrantResult) :=
  match directGrantQuery store workflowId providerId with
  | some g => some (some { id := g.id, policyRules := g.policyRules })
  | none =>
    let parentFolderId := (workflowQuery store workflowId).bind (fun w => w.parentFolderId)
    if strTruthy parentFolderId then walkFolders store providerId fuel parentFolderId
    else some none

/-- `getProviderDefaultRules` from `admin.ts`. -/
def getProviderDefaultRules (store : Store) (providerId : String) : List PolicyRule :=
  ((providerQuery store providerId).bind (fun p => p.defaultPolicyRules)).getD []

/-- The `{ ...rule, source }` spread used when pushing a rule onto the
chain. -/
def withSource (rule : PolicyRule) (src : RuleSource) : PolicyRuleWithSource :=
  { toPolicyRule := rule, source := src }

/-- `buildRuleChain` from `admin.ts`: grant rules (tagged `grant`)
followed by provider default rules (tagged `default`).  Returns `none`
when the resolver's folder walk does not finish within the fuel. -/
def buildRuleChain (store : Store) (workflowId providerId : String) (fuel : Nat) :
    Option PolicyRuleChain :=
  match findApplicableGrant store workflowId providerId fuel with
  | none => none
  | some grantOpt =>
    let grantRules :=
      match grantOpt with
      | some g =>
        match g.policyRules with
        | some rs => rs.map (fun r => withSource r .grant)
        | none => []
      | none => []
    let defaultRules := (getProviderDefaultRules store providerId).map
      (fun r => withSource r .default)
    some { rules := grantRules ++ defaultRules }

/-- `getGrantRules` from `admin.ts`: `null` for a missing grant,
otherwise `policyRules ?? []`. -/
def getGrantRules (store : Store) (grantId : String) : Option (List PolicyRule) :=
  match store.providerAccess.find? (fun g => decide (g.id = grantId)) with
  | none => none
  | some g => some (g.policyRules.getD [])

/-- The table state after `setGrantRules`: the `update ... set
policyRules = rules.length > 0 ? rules : null ... where id = grantId`
statement applied to the `provider_access` table. -/
def setGrantRulesStore (store : Store) (grantId : String) (rules : List PolicyRule) : Store :=
  { store with
    providerAccess := store.providerAccess.map (fun g =>
      if g.id = grantId then
        { g with policyRules := if rules.length > 0 then some rules else none }
      else g) }

/-- The return value of `setGrantRules`: the first updated row's
`policyRules ?? []`, or `null` when no row matched. -/
def setGrantRulesReturn (store : Store) (grantId : String) (rules : List PolicyRule) :
    Option (List PolicyRule) :=
  match (setGrantRulesStore store grantId rules).providerAccess.find?
      (fun g => decide (g.id = grantId)) with
  | none => none
  | some g => some (g.policyRules.getD [])

/-- Spec reading of section 4.1: every sub-test actually present on the
constraint passes — membership in `in`, non-membership in `notIn`,
strict equality with `eq`, the compiled `pattern` testing true against
the string form of the value, and the string form starting with
`startsWith`.  Absent sub-tests are skipped. -/
def subTestsPass (re : RegexEngine) (c : ParameterConstraint) (v : Value) : Prop :=
  (∀ vs, c.«in» = some vs → v ∈ vs) ∧
  (∀ vs, c.notIn = some vs → v ∉ vs) ∧
  (∀ w, c.eq = some w → v = w) ∧
  (∀ p, c.pattern = some p → re.compiles p = true ∧ re.test p v.toDisplayString = true) ∧
  (∀ s, c.startsWith = some s → v.toDisplayString.startsWith s = true)

/-- Evaluation of this constraint against this value reaches the
`pattern` sub-test and regular-expression construction fails: the
sub-tests checked before `pattern` (`in`, `notIn`, `eq`) pass, a
pattern is present, and it does not compile. -/
def constraintHitsBadPattern (re : RegexEngine) (c : ParameterConstraint) (v : Value) : Prop :=
  (∀ vs, c.«in» = some vs → v ∈ vs) ∧
  (∀ vs, c.notIn = some vs → v ∉ vs) ∧
  (∀ w, c.eq = some w → v = w) ∧
  (∃ p, c.pattern = some p ∧ re.compiles p = false)

/-- The entry-wise parameter check reaches a malformed `pattern`: some
entry whose parameter is present hits a bad pattern, every entry listed
before it having passed completely. -/
def entriesHitBadPattern (re : RegexEngine) (params : Params) :
    List (String × ParameterConstraint) → Prop
  | [] => False
  | (name, c) :: rest =>
    ∃ v, params name = some v ∧
      (constraintHitsBadPattern re c v ∨
        (checkConstraint re c v = .ok true ∧ entriesHitBadPattern re params rest))

/-- Matching this rule against this action and parameter bag reaches a
malformed `pattern`: the action gate passes and the constraint entries
reach a bad pattern. -/
def ruleHitsBadPattern (re : RegexEngine) (rule : PolicyRuleWithSource) (action : String)
    (params : Params) : Prop :=
  ruleMatchesAction rule action = true ∧
  ∃ entries, rule.parameterConstraints = some entries ∧
    entriesHitBadPattern re params entries

/-- Chain evaluation reaches a malformed `pattern`: walking the rules
in order, every rule before the offending one fails to match cleanly,
and the offending rule's matcher hits a bad pattern. -/
def rulesHitBadPattern (re : RegexEngine) (action : String) (params : Params) :
    List PolicyRuleWithSource → Prop
  | [] => False
  | rule :: rest =>
    ruleHitsBadPattern re rule action params ∨
      (ruleMatches re rule action params = .ok false ∧
        rulesHitBadPattern re action params rest)

/-- The grant-sourced prefix of a chain, as the claim describes it: the
applicable grant's stored rules tagged `source = grant`, in order, or
nothing when there is no grant or its rules are null. -/
def grantRulesOf : Option GrantResult → List PolicyRuleWithSource
  | some g => (g.policyRules.getD []).map (fun rule => withSource rule .grant)
  | none => []

/-- The ordered list of folder ids the folder walk visits, starting
from the given folder id, within the given fuel: the folder itself,
then its parent chain, stopping at a falsy (missing/null/empty) parent. -/
def ancestorChain (store : Store) : Nat → Option String → List String
  | _, none => []
  | 0, some _ => []
  | Nat.succ fuel, some s =>
    if s = "" then [] else s :: ancestorChain store fuel (folderParent store s)

/-- Termination of `findApplicableGrant` on the given inputs: some
amount of fuel makes the folder walk finish. -/
def resolverTerminates (store : Store) (workflowId providerId : String) : Prop :=
  ∃ fuel, (findApplicableGrant store workflowId providerId fuel).isSome

/-- A regex engine for concrete evaluations: every pattern compiles,
every test succeeds. -/
def trivEngine : RegexEngine := { compiles := fun _ => true, test := fun _ _ => true }

/-- A regex engine agreeing with JS on the concrete pattern used in the
counterexamples: the pattern `"("` does not compile (in JS,
`new RegExp("(")` throws a SyntaxError); every other pattern compiles. -/
def jsLikeEngine : RegexEngine :=
  { compiles := fun p => !(decide (p = "(")), test := fun p s => decide (p = s) }

/-- The empty parameter bag. -/
def noParams : Params := fun _ => none

/-- A parameter bag holding only `a = "x"`. -/
def paramsA : Params := fun name => if name = "a" then some (.str "x") else none

/-- The wildcard DENY rule of the first-match-wins example. -/
def denyAllRule : PolicyRuleWithSource :=
  { effect := .DENY, action := none, source := .grant }

/-- The specific ALLOW rule of the first-match-wins example. -/
def allowActionXRule : PolicyRuleWithSource :=
  { effect := .ALLOW, action := some "action-X", source := .grant }

/-- A wildcard rule whose only constraint carries the malformed pattern
`"("` on parameter `a`. -/
def badPatternRule : PolicyRuleWithSource :=
  { effect := .DENY
    action := none
    parameterConstraints := some [("a", { pattern := some "(" })]
    source := .grant }

/-- A wildcard rule constraining parameter `a` by the malformed pattern
`"("` and parameter `b` by an equality — used to show that a missing
`b` does not prevent the `a` constraint from throwing. -/
def twoEntryBadRule : PolicyRuleWithSource :=
  { effect := .DENY
    action := none
    parameterConstraints := some [("a", { pattern := some "(" }), ("b", { eq := some (.num 1) })]
    source := .grant }

/-- The spec's missing-required-parameter example rule:
`{effect: ALLOW, action: send, parameterConstraints: {channel: {eq: general}}}`. -/
def sendChannelRule : PolicyRuleWithSource :=
  { effect := .ALLOW
    action := some "send"
    parameterConstraints := some [("channel", { eq := some (.str "general") })]
    source := .grant }

/-- A constraint whose `in` field is the empty list. -/
def emptyInConstraint : ParameterConstraint := { «in» := some [] }

/-- A rule carrying the empty-`in` constraint on parameter `channel`. -/
def emptyInRule : PolicyRuleWithSource :=
  { effect := .ALLOW
    action := some "send"
    parameterConstraints := some [("channel", emptyInConstraint)]
    source := .grant }

/-- A parameter bag holding only `channel = "general"`. -/
def paramsChannel : Params := fun name => if name = "channel" then some (.str "general") else none

/-- A direct WORKFLOW grant of workflow `w1` on provider `p1` carrying
one DENY rule. -/
def demoGrant : Grant :=
  { id := "g1"
    principleType := "WORKFLOW"
    principleId := "w1"
    resourceType := "PROVIDER"
    resourceId := "p1"
    policyRules := some [{ effect := .DENY, action := some "deleteRepo" }] }

/-- A provider `p1` with one wildcard ALLOW default rule. -/
def demoProvider : Provider :=
  { id := "p1"
    defaultPolicyRules := some [{ effect := .ALLOW, action := none }] }

/-- A store with the direct grant `demoGrant` and provider
`demoProvider`. -/
def demoStore : Store :=
  { providerAccess := [demoGrant]
    workflows := []
    workflowFolders := []
    providers := [demoProvider] }

/-- A FOLDER grant on folder `f2` for provider `p1`. -/
def folderGrantRow : Grant :=
  { id := "g2"
    principleType := "FOLDER"
    principleId := "f2"
    resourceType := "PROVIDER"
    resourceId := "p1"
    policyRules := some [{ effect := .DENY, action := some "x" }] }

/-- A store where workflow `w1` sits in folder `f1`, whose parent `f2`
carries the only grant: the resolver must walk one ancestor step. -/
def folderDemoStore : Store :=
  { providerAccess := [folderGrantRow]
    workflows := [{ id := "w1", parentFolderId := some "f1" }]
    workflowFolders := [{ id := "f1", parentFolderId := some "f2" },
                        { id := "f2", parentFolderId := none }]
    providers := [demoProvider] }

/-- A store whose only folder is its own parent and carries no grant:
the resolver's folder walk never exits on it. -/
def loopStore : Store :=
  { providerAccess := []
    workflows := [{ id := "w1", parentFolderId := some "floop" }]
    workflowFolders := [{ id := "floop", parentFolderId := some "floop" }]
    providers := [] }

/-- A store with no folder rows at all: every parent lookup misses, so
any rank function trivially witnesses well-foundedness. -/
def flatStore : Store :=
  { providerAccess := []
    workflows := [{ id := "w1", parentFolderId := some "f1" }]
    workflowFolders := []
    providers := [] }

deriving instance DecidableEq for Except

/-- C3 (amended): if every rule's matcher returns false — no rule
matches and no rule's matcher throws — then `evaluateRuleChain` returns
the implicit allow: decision `ALLOWED`, no `matchedRule`, and reason
exactly `"No matching rule (implicit allow)"`.  In particular this
covers the empty chain, where the hypothesis is vacuous. -/
theorem evaluateRuleChain_implicit_allow (re : RegexEngine) (chain : PolicyRuleChain)
    (action : String) (params : Params)
    (h : ∀ rule ∈ chain.rules, ruleMatches re rule action params = .ok false) :
    evaluateRuleChain re chain action params =
      .ok { decision := .ALLOWED, matchedRule := none,
            reason := "No matching rule (implicit allow)" } := by
  obtain ⟨l⟩ := chain
  simp only [evaluateRuleChain] at h ⊢
  induction l with
  | nil => rfl
  | cons rule rest ih =>
    have hr : ruleMatches re rule action params = .ok false := h rule (by simp)
    rw [evalRules, hr]
    exact ih (fun q hq => h q (by simp [hq]))

/-- Witness for C3: the empty chain evaluates to the implicit allow. -/
theorem evaluateRuleChain_implicit_allow_witness :
    evaluateRuleChain trivEngine { rules := [] } "deleteRepo" noParams =
      .ok { decision := .ALLOWED, matchedRule := none,
            reason := "No matching rule (implicit allow)" } :=
  evaluateRuleChain_implicit_allow trivEngine { rules := [] } "deleteRepo" noParams
    (by intro rule hr; simp at hr)

/-- Counterexample to C3 as stated: in the chain `[badPatternRule]` no
rule matches the action and bag (the only rule's matcher throws on the
malformed pattern `"("`, so it certainly does not return true), yet
evaluation does not return the implicit allow — it propagates the
error. -/
theorem evaluateRuleChain_implicit_allow_cex :
    ({ rules := [badPatternRule] } : PolicyRuleChain).rules = [badPatternRule]
    ∧ ruleMatches jsLikeEngine badPatternRule "anyAction" paramsA ≠ .ok true
    ∧ evaluateRuleChain jsLikeEngine { rules := [badPatternRule] } "anyAction" paramsA =
        .error "Invalid regular expression" := by
  refine ⟨rfl, ?_, ?_⟩ <;> decide

/-- C1 (amended): first-match-wins.  If the chain splits as
`pre ++ rule :: post` where every rule of `pre` fails to match without
throwing and `rule` matches (action gate and parameter gate both pass),
then `evaluateRuleChain` returns the result determined by `rule`:
decision `ALLOWED` iff its effect is `ALLOW` (else `DENIED`),
`matchedRule` is that rule, and the reason is its description if
present, else the synthesized `"<EFFECT> <action-or-*> (<source>)"`.
The no-throw condition on `pre` is the amendment: a malformed pattern
reached in an earlier rule aborts evaluation instead. -/
theorem evaluateRuleChain_first_match (re : RegexEngine) (chain : PolicyRuleChain)
    (action : String) (params : Params)
    (pre post : List PolicyRuleWithSource) (rule : PolicyRuleWithSource)
    (hsplit : chain.rules = pre ++ rule :: post)
    (hpre : ∀ q ∈ pre, ruleMatches re q action params = .ok false)
    (hrule : ruleMatches re rule action params = .ok true) :
    evaluateRuleChain re chain action params =
      .ok { decision := if rule.effect = .ALLOW then .ALLOWED else .DENIED
            matchedRule := some rule
            reason :=
              match rule.description with
              | some d => d
              | none =>
                effectText rule.effect ++ " " ++
                  (match rule.action with
                   | none => "*"
                   | some a => a) ++ " (" ++ sourceText rule.source ++ ")" } := by
  obtain ⟨l⟩ := chain
  simp only at hsplit
  subst hsplit
  simp only [evaluateRuleChain]
  induction pre with
  | nil =>
    rw [List.nil_append, evalRules, hrule]
    rfl
  | cons q pre ih =>
    rw [List.cons_append, evalRules, hpre q (by simp)]
    exact ih (fun q hq => hpre q (by simp [hq]))

/-- Witness for C1: the spec's own instance — for the chain
`[DENY wildcard, ALLOW action-X]`, evaluating `action-X` yields
`DENIED` with the wildcard DENY as the matched rule (the earlier
wildcard DENY wins over the later specific ALLOW). -/
theorem evaluateRuleChain_first_match_witness :
    evaluateRuleChain trivEngine { rules := [denyAllRule, allowActionXRule] } "action-X"
        noParams =
      .ok { decision := .DENIED, matchedRule := some denyAllRule,
            reason := "DENY * (grant)" } :=
  evaluateRuleChain_first_match trivEngine { rules := [denyAllRule, allowActionXRule] }
    "action-X" noParams [] [allowActionXRule] denyAllRule rfl
    (by intro q hq; simp at hq) (by decide)

/-- Counterexample to C1 as stated: in the chain
`[badPatternRule, allowActionXRule]` with parameter bag `a = "x"`, the
rule `allowActionXRule` matches `action-X` (and is the earliest
matching rule, since the first rule's matcher throws rather than
returning true), yet `evaluateRuleChain` does not return that rule's
ALLOWED result — it propagates the malformed-pattern error from the
earlier rule. -/
theorem evaluateRuleChain_first_match_cex :
    ruleMatches jsLikeEngine allowActionXRule "action-X" paramsA = .ok true
    ∧ ruleMatches jsLikeEngine badPatternRule "action-X" paramsA ≠ .ok true
    ∧ evaluateRuleChain jsLikeEngine { rules := [badPatternRule, allowActionXRule] }
        "action-X" paramsA = .error "Invalid regular expression" := by
  refine ⟨?_, ?_, ?_⟩ <;> decide

/-- Helper: around a missing parameter, the entry walk can never
succeed, and it returns false outright when no earlier-listed entry's
constraint check throws. -/
theorem checkEntries_missing (re : RegexEngine) (params : Params)
    (l₁ l₂ : List (String × ParameterConstraint)) (name : String) (c : ParameterConstraint)
    (hmiss : params name = none) :
    checkEntries re params (l₁ ++ (name, c) :: l₂) ≠ .ok true
    ∧ ((∀ q ∈ l₁, ∀ v, params q.1 = some v → ∀ e, checkConstraint re q.2 v ≠ .error e) →
        checkEntries re params (l₁ ++ (name, c) :: l₂) = .ok false) := by
  induction l₁ with
  | nil => simp [checkEntries, hmiss]
  | cons q l₁ ih =>
    obtain ⟨qn, qc⟩ := q
    rw [List.cons_append]
    cases hv : params qn with
    | none => simp [checkEntries, hv]
    | some v =>
      cases hcc : checkConstraint re qc v with
      | error e =>
        refine ⟨by simp [checkEntries, hv, hcc], ?_⟩
        intro hno
        exact absurd hcc (hno (qn, qc) (by simp) v hv e)
      | ok b =>
        cases b with
        | false => simp [checkEntries, hv, hcc]
        | true =>
          refine ⟨by simpa [checkEntries, hv, hcc] using ih.1, ?_⟩
          intro hno
          simpa [checkEntries, hv, hcc] using ih.2 (fun q hq => hno q (by simp [hq]))

/-- Helper: the constraint attached to a missing parameter is never
tested — replacing it by any other constraint leaves the entry walk's
result unchanged. -/
theorem checkEntries_missing_untested (re : RegexEngine) (params : Params)
    (l₁ l₂ : List (String × ParameterConstraint)) (name : String)
    (c c₂ : ParameterConstraint) (hmiss : params name = none) :
    checkEntries re params (l₁ ++ (name, c) :: l₂) =
      checkEntries re params (l₁ ++ (name, c₂) :: l₂) := by
  induction l₁ with
  | nil => simp [checkEntries, hmiss]
  | cons q l₁ ih =>
    obtain ⟨qn, qc⟩ := q
    cases hv : params qn with
    | none => simp [checkEntries, hv]
    | some v =>
      cases hcc : checkConstraint re qc v with
      | error e => simp [checkEntries, hv, hcc]
      | ok b => cases b <;> simp [checkEntries, hv, hcc, ih]

/-- C2 (amended): fail-closed on a missing constrained parameter.  If a
rule's (non-empty) constraint mapping lists `name` and the bag has no
value for `name`, the rule never matches — regardless of its effect —
and the constraint attached to `name` is never tested; the matcher
returns false (so evaluation falls through to later rules or the
implicit allow) provided no earlier-listed present parameter's
constraint throws on a malformed pattern — that throwing case is the
amendment. -/
theorem ruleMatchesParams_missing_required (re : RegexEngine)
    (rule : PolicyRuleWithSource) (params : Params)
    (entries l₁ l₂ : List (String × ParameterConstraint)) (name : String)
    (c : ParameterConstraint)
    (hc : rule.parameterConstraints = some entries)
    (hsplit : entries = l₁ ++ (name, c) :: l₂)
    (hmiss : params name = none) :
    ruleMatchesParams re rule params ≠ .ok true
    ∧ (∀ c₂, checkEntries re params (l₁ ++ (name, c₂) :: l₂) =
        ruleMatchesParams re rule params)
    ∧ ((∀ q ∈ l₁, ∀ v, params q.1 = some v → ∀ e, checkConstraint re q.2 v ≠ .error e) →
        ruleMatchesParams re rule params = .ok false) := by
  subst hsplit
  simp only [ruleMatchesParams, hc]
  exact ⟨(checkEntries_missing re params l₁ l₂ name c hmiss).1,
    fun c₂ => (checkEntries_missing_untested re params l₁ l₂ name c₂ c hmiss),
    (checkEntries_missing re params l₁ l₂ name c hmiss).2⟩

/-- Witness for C2: the spec's example rule
`{effect: ALLOW, action: send, parameterConstraints: {channel: {eq: general}}}`
evaluated against the empty bag does not match. -/
theorem ruleMatchesParams_missing_required_witness :
    ruleMatchesParams trivEngine sendChannelRule noParams = .ok false :=
  (ruleMatchesParams_missing_required trivEngine sendChannelRule noParams
      [("channel", { eq := some (.str "general") })] [] []
      "channel" { eq := some (.str "general") } rfl rfl rfl).2.2
    (by intro q hq; simp at hq)

/-- Counterexample to C2 as stated: `twoEntryBadRule` constrains both
`a` (malformed pattern) and `b` (equality); in the bag `a = "x"` the
constrained parameter `b` is missing, yet evaluation of the one-rule
chain does not fall through to the implicit allow — the earlier-listed
present parameter's malformed pattern throws first. -/
theorem ruleMatchesParams_missing_required_cex :
    twoEntryBadRule.parameterConstraints =
      some [("a", { pattern := some "(" }), ("b", { eq := some (.num 1) })]
    ∧ paramsA "b" = none
    ∧ ruleMatchesParams jsLikeEngine twoEntryBadRule paramsA =
        .error "Invalid regular expression"
    ∧ evaluateRuleChain jsLikeEngine { rules := [twoEntryBadRule] } "send" paramsA =
        .error "Invalid regular expression" := by
  refine ⟨rfl, ?_, ?_, ?_⟩ <;> decide

/-- C5: the constraint matcher returns true exactly when every sub-test
actually present on the constraint passes — membership in `in`,
non-membership in `notIn`, equality with `eq`, the compiled `pattern`
testing true against the string form of the value, and the string form
starting with `startsWith` — absent sub-tests being skipped; in
particular a constraint with zero sub-tests set always returns true. -/
theorem checkConstraint_ok_true_iff (re : RegexEngine) (c : ParameterConstraint) (v : Value) :
    checkConstraint re c v = .ok true ↔ subTestsPass re c v := by
  obtain ⟨i, ni, e, pat, sw⟩ := c
  simp only [checkConstraint, subTestsPass]
  cases i <;> cases ni <;> cases e <;> cases pat <;> cases sw <;>
    simp [Option.any] <;> split_ifs <;> simp_all

/-- Helper for C8: the constraint check throws exactly when the
sub-tests before `pattern` pass and the present pattern does not
compile. -/
theorem checkConstraint_error_iff (re : RegexEngine) (c : ParameterConstraint) (v : Value) :
    (∃ er, checkConstraint re c v = .error er) ↔ constraintHitsBadPattern re c v := by
  obtain ⟨i, ni, e, pat, sw⟩ := c
  simp only [checkConstraint, constraintHitsBadPattern]
  cases i <;> cases ni <;> cases e <;> cases pat <;> cases sw <;>
    simp [Option.any] <;> split_ifs <;> simp_all

/-- Helper for C8: the entry walk throws exactly when it reaches an
entry whose present parameter hits a bad pattern, all earlier entries
passing. -/
theorem checkEntries_error_iff (re : RegexEngine) (params : Params)
    (entries : List (String × ParameterConstraint)) :
    (∃ er, checkEntries re params entries = .error er) ↔
      entriesHitBadPattern re params entries := by
  induction entries with
  | nil => simp [checkEntries, entriesHitBadPattern]
  | cons q rest ih =>
    obtain ⟨name, c⟩ := q
    cases hv : params name with
    | none =>
      have hstep : checkEntries re params ((name, c) :: rest) = .ok false := by
        simp [checkEntries, hv]
      constructor
      · rintro ⟨er, her⟩
        rw [hstep] at her
        cases her
      · rintro ⟨v, hv2, _⟩
        rw [hv] at hv2
        cases hv2
    | some v =>
      cases hcc : checkConstraint re c v with
      | error er =>
        constructor
        · intro _
          exact ⟨v, hv, Or.inl ((checkConstraint_error_iff re c v).mp ⟨er, hcc⟩)⟩
        · intro _
          exact ⟨er, by simp [checkEntries, hv, hcc]⟩
      | ok b =>
        cases b with
        | false =>
          have hstep : checkEntries re params ((name, c) :: rest) = .ok false := by
            simp [checkEntries, hv, hcc]
          constructor
          · rintro ⟨er, her⟩
            rw [hstep] at her
            cases her
          · rintro ⟨v2, hv2, hdisj⟩
            rw [hv] at hv2
            injection hv2 with hvv
            subst hvv
            rcases hdisj with hhit | ⟨hok, _⟩
            · obtain ⟨er, her⟩ := (checkConstraint_error_iff re c v).mpr hhit
              rw [hcc] at her
              cases her
            · rw [hcc] at hok
              cases hok
        | true =>
          have hstep : checkEntries re params ((name, c) :: rest) =
              checkEntries re params rest := by
            simp [checkEntries, hv, hcc]
          rw [hstep, ih]
          constructor
          · intro hrest
            exact ⟨v, hv, Or.inr ⟨hcc, hrest⟩⟩
          · rintro ⟨v2, hv2, hdisj⟩
            rw [hv] at hv2
            injection hv2 with hvv
            subst hvv
            rcases hdisj with hhit | ⟨_, hrest⟩
            · obtain ⟨er, her⟩ := (checkConstraint_error_iff re c v).mpr hhit
              rw [hcc] at her
              cases her
            · exact hrest

/-- Helper for C8: the rule matcher throws exactly when the action gate
passes and the constraint entries reach a bad pattern. -/
theorem ruleMatches_error_iff (re : RegexEngine) (rule : PolicyRuleWithSource)
    (action : String) (params : Params) :
    (∃ er, ruleMatches re rule action params = .error er) ↔
      ruleHitsBadPattern re rule action params := by
  unfold ruleMatches ruleHitsBadPattern
  cases hact : ruleMatchesAction rule action with
  | false => simp
  | true =>
    simp only [if_true]
    unfold ruleMatchesParams
    cases hc : rule.parameterConstraints with
    | none => simp
    | some entries => simp [checkEntries_error_iff]

/-- C8: malformed pattern is the only failure path.  `evaluateRuleChain`
throws if and only if evaluation reaches a `pattern` sub-test whose
pattern does not compile — some rule up to and including the first
matching rule passes its action gate, its entries are walked up to a
present constrained parameter whose `in`/`notIn`/`eq` sub-tests pass,
and regular-expression construction fails; in every other case
evaluation completes normally with an `ok` result, the error being
propagated, never converted into a decision. -/
theorem evaluateRuleChain_error_iff (re : RegexEngine) (chain : PolicyRuleChain)
    (action : String) (params : Params) :
    ((∃ er, evaluateRuleChain re chain action params = .error er) ↔
      rulesHitBadPattern re action params chain.rules)
    ∧ (¬ rulesHitBadPattern re action params chain.rules →
        ∃ res, evaluateRuleChain re chain action params = .ok res) := by
  obtain ⟨l⟩ := chain
  simp only [evaluateRuleChain]
  have main : (∃ er, evalRules re action params l = .error er) ↔
      rulesHitBadPattern re action params l := by
    induction l with
    | nil =>
      simp only [rulesHitBadPattern]
      constructor
      · rintro ⟨er, her⟩
        rw [evalRules] at her
        cases her
      · intro h
        cases h
    | cons rule rest ih =>
      cases hm : ruleMatches re rule action params with
      | error er =>
        constructor
        · intro _
          exact Or.inl ((ruleMatches_error_iff re rule action params).mp ⟨er, hm⟩)
        · intro _
          exact ⟨er, by simp [evalRules, hm]⟩
      | ok b =>
        cases b with
        | true =>
          have hstep : evalRules re action params (rule :: rest) = .ok (matchResult rule) := by
            simp [evalRules, hm]
          constructor
          · rintro ⟨er, her⟩
            rw [hstep] at her
            cases her
          · rintro (hhit | ⟨hfalse, _⟩)
            · obtain ⟨er, her⟩ := (ruleMatches_error_iff re rule action params).mpr hhit
              rw [hm] at her
              cases her
            · rw [hm] at hfalse
              cases hfalse
        | false =>
          have hstep : evalRules re action params (rule :: rest) =
              evalRules re action params rest := by
            simp [evalRules, hm]
          rw [hstep, ih]
          constructor
          · intro hrest
            exact Or.inr ⟨hm, hrest⟩
          · rintro (hhit | ⟨_, hrest⟩)
            · obtain ⟨er, her⟩ := (ruleMatches_error_iff re rule action params).mpr hhit
              rw [hm] at her
              cases her
            · exact hrest
  refine ⟨main, ?_⟩
  intro hnot
  cases hval : evalRules re action params l with
  | error er => exact absurd (main.mp ⟨er, hval⟩) hnot
  | ok res => exact ⟨res, rfl⟩

/-- Helper: a successful entry walk means every listed entry's
parameter was present and its constraint check returned true. -/
theorem checkEntries_ok_true_mem (re : RegexEngine) (params : Params)
    (entries : List (String × ParameterConstraint))
    (h : checkEntries re params entries = .ok true) :
    ∀ q ∈ entries, ∃ v, params q.1 = some v ∧ checkConstraint re q.2 v = .ok true := by
  induction entries with
  | nil =>
    intro q hq
    cases hq
  | cons q0 rest ih =>
    obtain ⟨name, c⟩ := q0
    intro q hq
    cases hv : params name with
    | none =>
      simp [checkEntries, hv] at h
    | some v =>
      cases hcc : checkConstraint re c v with
      | error er =>
        simp [checkEntries, hv, hcc] at h
      | ok b =>
        cases b with
        | false =>
          simp [checkEntries, hv, hcc] at h
        | true =>
          simp only [checkEntries, hv, hcc] at h
          rcases List.mem_cons.mp hq with rfl | hq2
          · exact ⟨v, hv, hcc⟩
          · exact ih h q hq2

/-- C10: a constraint whose `in` field is the empty list fails for
every value, and a rule carrying such a constraint on some parameter
never matches any call — for every action and parameter bag (whether
the parameter is supplied or omitted), its matcher never returns true,
so the rule is dead. -/
theorem emptyIn_matches_nothing (re : RegexEngine) (c : ParameterConstraint)
    (rule : PolicyRuleWithSource) (entries : List (String × ParameterConstraint))
    (name : String)
    (hin : c.«in» = some ([] : List Value))
    (hc : rule.parameterConstraints = some entries)
    (hmem : (name, c) ∈ entries) :
    (∀ v, checkConstraint re c v = .ok false)
    ∧ ∀ action params, ruleMatches re rule action params ≠ .ok true := by
  have hfail : ∀ v, checkConstraint re c v = .ok false := by
    intro v
    unfold checkConstraint
    rw [hin]
    simp [Option.any]
  refine ⟨hfail, ?_⟩
  intro action params hmt
  unfold ruleMatches at hmt
  split at hmt
  · rw [ruleMatchesParams, hc] at hmt
    obtain ⟨v, _, hok⟩ := checkEntries_ok_true_mem re params entries hmt (name, c) hmem
    rw [hfail v] at hok
    cases hok
  · cases hmt

/-- Helper: rules tagged with a source carry that source. -/
theorem map_withSource_source (rs : List PolicyRule) (src : RuleSource) :
    ∀ x ∈ rs.map (fun r => withSource r src), x.source = src := by
  intro x hx
  obtain ⟨rule, _, rfl⟩ := List.mem_map.mp hx
  rfl

/-- C4: builder precedence and provenance.  Whenever the resolver
finishes (returning `r`), the chain built by `buildRuleChain` is
exactly the applicable grant's rules tagged `grant` in stored order
(`grantRulesOf r`, empty when there is no grant or its rules are null)
concatenated with the provider's default rules tagged `default` in
stored order; hence the chain always splits as grant-sourced rules
followed by default-sourced rules. -/
theorem buildRuleChain_precedence (store : Store) (w p : String) (fuel : Nat)
    (r : Option GrantResult) (h : findApplicableGrant store w p fuel = some r) :
    (buildRuleChain store w p fuel =
      some { rules := grantRulesOf r ++
        (getProviderDefaultRules store p).map (fun rule => withSource rule .default) })
    ∧ ∀ chain, buildRuleChain store w p fuel = some chain →
        ∃ gs ds, chain.rules = gs ++ ds
          ∧ (∀ x ∈ gs, x.source = RuleSource.grant)
          ∧ (∀ x ∈ ds, x.source = RuleSource.default) := by
  have hb : buildRuleChain store w p fuel =
      some { rules := grantRulesOf r ++
        (getProviderDefaultRules store p).map (fun rule => withSource rule .default) } := by
    unfold buildRuleChain
    rw [h]
    cases r with
    | none => rfl
    | some g =>
      obtain ⟨gid, grules⟩ := g
      cases grules <;> rfl
  refine ⟨hb, ?_⟩
  intro chain hchain
  rw [hb] at hchain
  injection hchain with hch
  subst hch
  refine ⟨grantRulesOf r, _, rfl, ?_, map_withSource_source _ _⟩
  cases r with
  | none =>
    intro x hx
    cases hx
  | some g => exact map_withSource_source _ _

/-- Witness for C4: the spec's end-to-end stores — the grant's DENY
`deleteRepo` rule (tagged grant) precedes the provider's wildcard ALLOW
default (tagged default). -/
theorem buildRuleChain_precedence_witness :
    buildRuleChain demoStore "w1" "p1" 0 =
      some { rules :=
        [withSource { effect := .DENY, action := some "deleteRepo" } .grant,
         withSource { effect := .ALLOW, action := none } .default] } :=
  (buildRuleChain_precedence demoStore "w1" "p1" 0
      (some { id := "g1"
              policyRules := some [{ effect := .DENY, action := some "deleteRepo" }] })
      (by decide)).1

/-- Helper: looking up an id after an id-preserving conditional update
finds the updated image of the originally found row. -/
theorem find?_update (l : List Grant) (grantId : String) (f : Grant → Grant)
    (hf : ∀ g, (f g).id = g.id) :
    (l.map (fun g => if g.id = grantId then f g else g)).find?
        (fun g => decide (g.id = grantId))
      = (l.find? (fun g => decide (g.id = grantId))).map
          (fun g => if g.id = grantId then f g else g) := by
  have hcomp : ((fun g => decide (g.id = grantId)) ∘
      fun g => if g.id = grantId then f g else g) = fun g => decide (g.id = grantId) := by
    funext g
    by_cases hg : g.id = grantId <;> simp [Function.comp, hg, hf]
  rw [List.find?_map, hcomp]

/-- C6: grant-rules round-trip.  For an existing grant id,
`setGrantRules(id, R)` followed by `getGrantRules(id)` returns exactly
`R` (the empty array when `R` is empty — the write stores `null`, shown
by the normalization conjunct, and the read maps stored `null` back to
`[]`); for a non-existent id both operations return `null`. -/
theorem grantRules_roundtrip (store : Store) (grantId : String) (rules : List PolicyRule) :
    ((∃ g ∈ store.providerAccess, g.id = grantId) →
        getGrantRules (setGrantRulesStore store grantId rules) grantId = some rules
        ∧ setGrantRulesReturn store grantId rules = some rules
        ∧ (rules = [] → ∀ g ∈ (setGrantRulesStore store grantId rules).providerAccess,
              g.id = grantId → g.policyRules = none))
    ∧ ((¬ ∃ g ∈ store.providerAccess, g.id = grantId) →
        getGrantRules store grantId = none
        ∧ getGrantRules (setGrantRulesStore store grantId rules) grantId = none
        ∧ setGrantRulesReturn store grantId rules = none) := by
  have hmap := find?_update store.providerAccess grantId
    (fun g => { g with policyRules := if rules.length > 0 then some rules else none })
    (fun g => rfl)
  constructor
  · intro hex
    have hsome : (store.providerAccess.find? (fun g => decide (g.id = grantId))).isSome := by
      rw [List.find?_isSome]
      obtain ⟨g, hg, hid⟩ := hex
      exact ⟨g, hg, by simp [hid]⟩
    obtain ⟨g0, hg0⟩ := Option.isSome_iff_exists.mp hsome
    have hid0 : g0.id = grantId := by
      have := List.find?_some hg0
      simpa using this
    have hget : getGrantRules (setGrantRulesStore store grantId rules) grantId = some rules := by
      unfold getGrantRules setGrantRulesStore
      simp only
      rw [hmap, hg0]
      simp [hid0]
      cases rules <;> simp
    refine ⟨hget, ?_, ?_⟩
    · unfold setGrantRulesReturn setGrantRulesStore
      simp only
      rw [hmap, hg0]
      simp [hid0]
      cases rules <;> simp
    · intro hnil g hg hid
      subst hnil
      unfold setGrantRulesStore at hg
      simp only [List.mem_map] at hg
      obtain ⟨g1, hg1, rfl⟩ := hg
      by_cases h1 : g1.id = grantId
      · simp [h1]
      · rw [if_neg h1] at hid ⊢
        exact absurd hid h1
  · intro hnex
    have hnone : store.providerAccess.find? (fun g => decide (g.id = grantId)) = none := by
      rw [List.find?_eq_none]
      intro g hg
      simp only [decide_eq_true_eq]
      intro hid
      exact hnex ⟨g, hg, hid⟩
    refine ⟨?_, ?_, ?_⟩
    · unfold getGrantRules
      rw [hnone]
    · unfold getGrantRules setGrantRulesStore
      simp only
      rw [hmap, hnone]
      rfl
    · unfold setGrantRulesReturn setGrantRulesStore
      simp only
      rw [hmap, hnone]
      rfl

/-- Witness for C6: writing one rule to the existing grant `g1` and
reading it back returns that same rule array. -/
theorem grantRules_roundtrip_witness :
    getGrantRules (setGrantRulesStore demoStore "g1"
        [{ effect := .ALLOW, action := some "y" }]) "g1"
      = some [{ effect := .ALLOW, action := some "y" }] :=
  ((grantRules_roundtrip demoStore "g1" [{ effect := .ALLOW, action := some "y" }]).1
      ⟨demoGrant, by simp [demoStore], rfl⟩).1

/-- Helper for C7: when the folder walk finishes, its result is the
first grant found along the visited ancestor chain (nearest first),
projected to `{id, policyRules}`, or null when no visited folder has a
grant. -/
theorem walkFolders_spec (store : Store) (p : String) :
    ∀ (fuel : Nat) (cur : Option String) (r : Option GrantResult),
      walkFolders store p fuel cur = some r →
      r = ((ancestorChain store fuel cur).findSome? (fun f => folderGrantQuery store f p)).map
            (fun g => { id := g.id, policyRules := g.policyRules }) := by
  intro fuel
  induction fuel with
  | zero =>
    intro cur r h
    cases cur with
    | none =>
      simp only [walkFolders] at h
      injection h with h
      subst h
      rfl
    | some s =>
      by_cases hs : s = ""
      · simp only [walkFolders, if_pos hs] at h
        injection h with h
        subst h
        simp [ancestorChain, hs]
      · simp only [walkFolders, if_neg hs] at h
        cases h
  | succ fuel ih =>
    intro cur r h
    cases cur with
    | none =>
      simp only [walkFolders] at h
      injection h with h
      subst h
      rfl
    | some s =>
      by_cases hs : s = ""
      · simp only [walkFolders, if_pos hs] at h
        injection h with h
        subst h
        simp [ancestorChain, hs]
      · simp only [walkFolders, if_neg hs] at h
        cases hq : folderGrantQuery store s p with
        | some g =>
          rw [hq] at h
          injection h with h
          subst h
          simp [ancestorChain, hs, List.findSome?_cons, hq]
        | none =>
          rw [hq] at h
          have hr := ih (folderParent store s) r h
          simp [ancestorChain, hs, List.findSome?_cons, hq, hr]

/-- C7: resolver specificity order.  Whenever `findApplicableGrant`
finishes, its result is the grant scoped directly to the workflow
against the provider if one exists; otherwise the grant on the nearest
folder of the workflow's ancestor chain that has one (`findSome?` over
the chain, immediate parent first); and null when no level has a grant
or the workflow has no (truthy) parent folder. -/
theorem findApplicableGrant_specificity (store : Store) (w p : String) (fuel : Nat)
    (r : Option GrantResult)
    (h : findApplicableGrant store w p fuel = some r) :
    r = match directGrantQuery store w p with
        | some g => some { id := g.id, policyRules := g.policyRules }
        | none =>
          ((ancestorChain store fuel
                ((workflowQuery store w).bind (fun wf => wf.parentFolderId))).findSome?
              (fun f => folderGrantQuery store f p)).map
            (fun g => { id := g.id, policyRules := g.policyRules }) := by
  unfold findApplicableGrant at h
  cases hd : directGrantQuery store w p with
  | some g =>
    rw [hd] at h
    injection h with h
    subst h
    rfl
  | none =>
    rw [hd] at h
    simp only at h
    by_cases ht : strTruthy ((workflowQuery store w).bind (fun wf => wf.parentFolderId))
    · rw [if_pos ht] at h
      exact walkFolders_spec store p fuel _ r h
    · rw [if_neg ht] at h
      injection h with h
      subst h
      cases hparent : (workflowQuery store w).bind (fun wf => wf.parentFolderId) with
      | none => simp [ancestorChain]
      | some s =>
        have hs : s = "" := by
          rw [hparent] at ht
          simp [strTruthy] at ht
          exact ht
        subst hs
        cases fuel <;> simp [ancestorChain]

/-- Witness for C7: in `folderDemoStore` the resolver (with fuel 2)
returns the grant on folder `f2`, the nearest ancestor of workflow
`w1`'s parent chain carrying a grant, matching the chain
characterization. -/
theorem findApplicableGrant_specificity_witness :
    (some { id := "g2", policyRules := some [{ effect := .DENY, action := some "x" }] }
        : Option GrantResult) =
      match directGrantQuery folderDemoStore "w1" "p1" with
      | some g => some { id := g.id, policyRules := g.policyRules }
      | none =>
        ((ancestorChain folderDemoStore 2
              ((workflowQuery folderDemoStore "w1").bind (fun wf => wf.parentFolderId))).findSome?
            (fun f => folderGrantQuery folderDemoStore f "p1")).map
          (fun g => { id := g.id, policyRules := g.policyRules }) :=
  findApplicableGrant_specificity folderDemoStore "w1" "p1" 2
    (some { id := "g2", policyRules := some [{ effect := .DENY, action := some "x" }] })
    (by decide)

/-- Counterexample to C9 as stated: on `loopStore` — a store state
whose only folder is its own parent and carries no grant — the
resolver's folder walk never finishes at any fuel, so
`findApplicableGrant` does not terminate for every store state. -/
theorem resolver_termination_cex : ¬ resolverTerminates loopStore "w1" "p1" := by
  have hwalk : ∀ fuel, walkFolders loopStore "p1" fuel (some "floop") = none := by
    intro fuel
    induction fuel with
    | zero => decide
    | succ fuel ih =>
      have h1 : folderGrantQuery loopStore "floop" "p1" = none := rfl
      have h2 : folderParent loopStore "floop" = some "floop" := by decide
      rw [walkFolders, if_neg (by decide : ¬ ("floop" = "")), h1, h2]
      exact ih
  rintro ⟨fuel, hsome⟩
  have heq : findApplicableGrant loopStore "w1" "p1" fuel =
      walkFolders loopStore "p1" fuel (some "floop") := rfl
  rw [heq, hwalk] at hsome
  cases hsome

/-- C9 (amended): the resolver terminates on every store state whose
folder parent relation is well-founded — witnessed by a rank that
decreases along `folderParent`, as in any genuine (acyclic) folder
hierarchy: the walk stops at the first folder grant found or when the
hierarchy is exhausted (missing folder, or root with no parent).  The
well-foundedness hypothesis is the amendment: a store with a parent
cycle makes the walk spin forever. -/
theorem resolver_terminates_of_wellFounded (store : Store) (w p : String)
    (rank : String → Nat)
    (hrank : ∀ s t, folderParent store s = some t → rank t < rank s) :
    resolverTerminates store w p := by
  have hwalk : ∀ n (s : String), rank s ≤ n →
      ∃ fuel, (walkFolders store p fuel (some s)).isSome := by
    intro n
    induction n with
    | zero =>
      intro s hs
      by_cases hse : s = ""
      · exact ⟨0, by simp [walkFolders, hse]⟩
      · refine ⟨Nat.succ 0, ?_⟩
        rw [walkFolders, if_neg hse]
        cases hq : folderGrantQuery store s p with
        | some g => simp
        | none =>
          cases hpar : folderParent store s with
          | none => simp [walkFolders]
          | some t => exact absurd (hrank s t hpar) (by omega)
    | succ n ih =>
      intro s hs
      by_cases hse : s = ""
      · exact ⟨0, by simp [walkFolders, hse]⟩
      · cases hq : folderGrantQuery store s p with
        | some g =>
          refine ⟨Nat.succ 0, ?_⟩
          rw [walkFolders, if_neg hse, hq]
          rfl
        | none =>
          cases hpar : folderParent store s with
          | none =>
            refine ⟨Nat.succ 0, ?_⟩
            rw [walkFolders, if_neg hse, hq, hpar]
            rfl
          | some t =>
            obtain ⟨fuel, hf⟩ := ih t (by have := hrank s t hpar; omega)
            refine ⟨Nat.succ fuel, ?_⟩
            rw [walkFolders, if_neg hse, hq, hpar]
            exact hf
  unfold resolverTerminates
  cases hd : directGrantQuery store w p with
  | some g =>
    refine ⟨0, ?_⟩
    unfold findApplicableGrant
    rw [hd]
    rfl
  | none =>
    cases hparent : (workflowQuery store w).bind (fun wf => wf.parentFolderId) with
    | none =>
      refine ⟨0, ?_⟩
      unfold findApplicableGrant
      rw [hd]
      simp only
      rw [hparent]
      rfl
    | some s =>
      by_cases hse : s = ""
      · refine ⟨0, ?_⟩
        unfold findApplicableGrant
        rw [hd]
        simp only
        rw [hparent]
        simp [strTruthy, hse, walkFolders]
      · obtain ⟨fuel, hf⟩ := hwalk (rank s) s le_rfl
        refine ⟨fuel, ?_⟩
        unfold findApplicableGrant
        rw [hd]
        simp only
        rw [hparent]
        rw [if_pos (by simp [strTruthy, hse])]
        exact hf

/-- Witness for C9: `flatStore` has no folder rows, so the constant
rank vacuously decreases along `folderParent`, and the resolver
terminates on it. -/
theorem resolver_terminates_of_wellFounded_witness : resolverTerminates flatStore "w1" "p1" :=
  resolver_terminates_of_wellFounded flatStore "w1" "p1" (fun _ => 0)
    (by
      intro s t h
      simp [folderParent, folderQuery, flatStore] at h)

/-- Witness for C5: the constraint with zero sub-tests set returns
true on a concrete value. -/
theorem checkConstraint_ok_true_iff_witness :
    checkConstraint trivEngine {} (.str "general") = .ok true := by
  apply (checkConstraint_ok_true_iff trivEngine {} (.str "general")).mpr
  simp only [subTestsPass]
  refine ⟨?_, ?_, ?_, ?_, ?_⟩ <;> intro x h <;> exact nomatch h

/-- Witness for C8: a chain whose first rule reaches the malformed
pattern `"("` on a present parameter makes evaluation throw. -/
theorem evaluateRuleChain_error_iff_witness :
    ∃ er, evaluateRuleChain jsLikeEngine { rules := [badPatternRule] } "anyAction" paramsA =
      .error er := by
  apply (evaluateRuleChain_error_iff jsLikeEngine { rules := [badPatternRule] }
      "anyAction" paramsA).1.mpr
  simp only [rulesHitBadPattern, ruleHitsBadPattern, entriesHitBadPattern,
    constraintHitsBadPattern]
  refine Or.inl ⟨by decide, ⟨[("a", { pattern := some "(" })], rfl, ?_⟩⟩
  refine ⟨.str "x", by decide, Or.inl ⟨?_, ?_, ?_, ⟨"(", rfl, by decide⟩⟩⟩
  · exact fun vs h => nomatch h
  · exact fun vs h => nomatch h
  · exact fun w h => nomatch h

/-- Witness for C10: the concrete empty-`in` constraint fails on the
value `"general"`, and the rule carrying it on `channel` does not match
even a bag that supplies `channel = "general"`. -/
theorem emptyIn_matches_nothing_witness :
    checkConstraint trivEngine emptyInConstraint (.str "general") = .ok false
    ∧ ruleMatches trivEngine emptyInRule "send" paramsChannel ≠ .ok true :=
  ⟨(emptyIn_matches_nothing trivEngine emptyInConstraint emptyInRule
      [("channel", emptyInConstraint)] "channel" rfl rfl (by simp)).1 (.str "general"),
   (emptyIn_matches_nothing trivEngine emptyInConstraint emptyInRule
      [("channel", emptyInConstraint)] "channel" rfl rfl (by simp)).2 "send" paramsChannel⟩

end Floww
